import Mathlib

/-!
Verification of the refinement driver and feature-adaptive selector of
`src/opensubdiv/far/topologyRefiner.cpp` (Far::TopologyRefiner).

The mesh-connectivity storage (Vtr::Level), the child-level computation
(Vtr::Refinement::refine) and the sparse selector (Vtr::SparseSelector) are
external collaborators of this file: a `Level` is modelled as a record of its
read-only accessors, a `Refinement` as a record of the data the driver hands
it (scheme, parent, child, and the options its `refine` call received), and
the child level produced by `refine` is supplied by an arbitrary oracle
function, over which all theorems are universally quantified.  The selector
is modelled as the list of face indices passed to `selectFace`.

C++ `int` values that the claims use only for counting (sizes, depths, face
counts) are modelled as `Nat`; Ptex indices, which mix with the sentinel
`-1`, are modelled as `Int`.  Out-of-bounds accesses into `std::vector`
(undefined behaviour in the source) are modelled by `Option`: `none` means
the access faulted.
-/

namespace Far

/-- Model of `Sdc::Type` enumeration. -/
inductive SdcType where
  | TYPE_BILINEAR
  | TYPE_CATMARK
  | TYPE_LOOP
deriving DecidableEq, Repr

/-- Model of `Sdc::Options` — opaque to the driver; no field is ever read by the code
under verification. -/
structure SdcOptions where
deriving DecidableEq, Repr

/-- Model of `Sdc::Crease::RULE_SMOOTH` bit. -/
def RULE_SMOOTH : Nat := 1
/-- Model of `Sdc::Crease::RULE_DART` bit. -/
def RULE_DART : Nat := 2
/-- Model of `Sdc::Crease::RULE_CREASE` bit. -/
def RULE_CREASE : Nat := 4
/-- Model of `Sdc::Crease::RULE_CORNER` bit. -/
def RULE_CORNER : Nat := 8

/-- Model of `Vtr::Level::VTag` — the composite vertex tag consumed by the selector:
incompleteness, extraordinary valence, semi-sharp crease, non-manifoldness,
and the bitwise-combined `Sdc::Crease` rule mask. -/
structure VTag where
  _incomplete : Bool
  _xordinary : Bool
  _semiSharp : Bool
  _nonManifold : Bool
  _rule : Nat
deriving DecidableEq, Repr

/-- Model of `Vtr::Level`, modelled by its read-only accessors used in
topologyRefiner.cpp: vertex/face counts, face-to-vertex and vertex-to-face
adjacency, and composite-tag aggregation (computed externally by Vtr). -/
structure Level where
  getNumVertices : Nat
  getNumFaces : Nat
  getFaceVertices : Nat → List Nat
  getVertexFaces : Nat → List Nat
  getFaceCompositeVTag : List Nat → VTag

/-- A default-constructed (empty) `Vtr::Level`, as produced by
`_levels.resize(1)` in the TopologyRefiner constructor. -/
def Level.default : Level :=
  { getNumVertices := 0
    getNumFaces := 0
    getFaceVertices := fun _ => []
    getVertexFaces := fun _ => []
    getFaceCompositeVTag := fun _ =>
      { _incomplete := false, _xordinary := false, _semiSharp := false,
        _nonManifold := false, _rule := 0 } }

/-- The state of a `Vtr::SparseSelector`: the faces recorded by
`selectFace`, in call order. -/
abbrev Selection := List Nat

/-- Model of `Vtr::SparseSelector::selectFace` — records a face (at most once). -/
def Selection.selectFace (s : Selection) (f : Nat) : Selection :=
  if f ∈ s then s else s ++ [f]

/-- Model of `Vtr::SparseSelector::isSelectionEmpty`. -/
def Selection.isSelectionEmpty (s : Selection) : Bool := s.isEmpty

/-- The `bool selectFace` computation of
`TopologyRefiner::catmarkFeatureAdaptiveSelector` (lines 310-333): the
if-chain classifying a quad face from its composite vertex tag. -/
def selectFaceFlag (compFaceTag : VTag) : Bool :=
  if compFaceTag._xordinary || compFaceTag._semiSharp then true
  else if (compFaceTag._rule &&& RULE_DART) != 0 then true
  else if compFaceTag._nonManifold then true
  else if (compFaceTag._rule &&& RULE_SMOOTH) == 0 then true
  else false

/-- One iteration of the per-face loop of
`TopologyRefiner::catmarkFeatureAdaptiveSelector` (lines 274-337): the
non-quad branch selects every face incident to every vertex of the face and
continues; the quad branch skips incomplete faces and otherwise applies the
tag classification `selectFaceFlag`. -/
def selectorStepForFace (level : Level) (sel : Selection) (face : Nat) : Selection :=
  let faceVerts := level.getFaceVertices face
  if faceVerts.length ≠ 4 then
    faceVerts.foldl (fun s v => (level.getVertexFaces v).foldl Selection.selectFace s) sel
  else
    let compFaceTag := level.getFaceCompositeVTag faceVerts
    if compFaceTag._incomplete then
      sel
    else if selectFaceFlag compFaceTag then
      Selection.selectFace sel face
    else
      sel

/-- Model of `TopologyRefiner::catmarkFeatureAdaptiveSelector`: iterate
`selectorStepForFace` over all faces of the parent level of the refinement,
starting from a freshly initialized (empty) selector. -/
def catmarkFeatureAdaptiveSelector (level : Level) : Selection :=
  (List.range level.getNumFaces).foldl (selectorStepForFace level) []

/-- Model of `Vtr::Refinement::Options`: the `_sparse` and `_faceTopologyOnly` flags
set by the driver. -/
structure RefineOptions where
  _sparse : Bool
  _faceTopologyOnly : Bool
deriving DecidableEq, Repr

/-- A `Vtr::Refinement` slot as the driver leaves it: the scheme it was
bound to via `setScheme`, the parent and child levels it was initialized
with, and the options its `refine` call received. -/
structure RefinementRec where
  scheme : SdcType
  parent : Level
  child : Level
  options : RefineOptions

/-- The state of a `Far::TopologyRefiner`. -/
structure RefinerState where
  _subdivType : SdcType
  _subdivOptions : SdcOptions
  _isUniform : Bool
  _maxLevel : Nat
  _levels : List Level
  _refinements : List RefinementRec
  _ptexIndices : List Int

/-- Model of `TopologyRefiner::TopologyRefiner` (lines 40-50): stores scheme and
options, sets `_isUniform = true`, `_maxLevel = 0`, and resizes `_levels`
to one default-constructed level. -/
def TopologyRefinerCtor (schemeType : SdcType) (schemeOptions : SdcOptions) : RefinerState :=
  { _subdivType := schemeType
    _subdivOptions := schemeOptions
    _isUniform := true
    _maxLevel := 0
    _levels := [Level.default]
    _refinements := []
    _ptexIndices := [] }

/-- Model of `TopologyRefiner::Unrefine` (lines 54-60): `_levels.resize(1)` only when
`_levels.size()` is nonzero; `_refinements.clear()` unconditionally. -/
def Unrefine (st : RefinerState) : RefinerState :=
  { st with
    _levels := if st._levels.length ≠ 0 then st._levels.take 1 else st._levels
    _refinements := [] }

/-- Model of `TopologyRefiner::Clear` (lines 62-66): clears both `_levels` and
`_refinements`; note that `_ptexIndices` is not touched. -/
def Clear (st : RefinerState) : RefinerState :=
  { st with _levels := [], _refinements := [] }

/-- Model of `Sdc::TypeTraits<SCHEME>::RegularFaceValence()`. -/
def TypeTraitsRegularFaceValence : SdcType → Nat
  | SdcType.TYPE_BILINEAR => 4
  | SdcType.TYPE_CATMARK => 4
  | SdcType.TYPE_LOOP => 3

/-- The per-face increment of `computePtexIndices` (line 122):
`fverts.size()==RegularFaceValence() ? 1 : fverts.size()`. -/
def ptexFaceContribution (reg : Nat) (level : Level) (i : Nat) : Nat :=
  if (level.getFaceVertices i).length == reg then 1
  else (level.getFaceVertices i).length

/-- The loop of `computePtexIndices` (lines 118-125), writing the running
`ptexID` for each remaining face and the final total as last entry. -/
def ptexLoop (reg : Nat) (level : Level) : Nat → Nat → Int → List Int
  | 0, _, ptexID => [ptexID]
  | Nat.succ n, i, ptexID =>
      ptexID :: ptexLoop reg level n (i + 1) (ptexID + (ptexFaceContribution reg level i : Int))

/-- Model of `computePtexIndices<SCHEME_TYPE>` (lines 114-126): the resulting vector
of `nfaces+1` entries. -/
def computePtexIndices (reg : Nat) (coarseLevel : Level) : List Int :=
  ptexLoop reg coarseLevel coarseLevel.getNumFaces 0 0

/-- Model of `TopologyRefiner::initializePtexIndices` (lines 127-138): dispatches on
the scheme and recomputes the cache from `_levels[0]`.  Reading `_levels[0]`
when `_levels` is empty is an out-of-bounds access, modelled as `none`. -/
def initPtexIndices (st : RefinerState) : Option RefinerState :=
  match st._levels with
  | [] => none
  | l0 :: _ =>
      some { st with
        _ptexIndices := computePtexIndices (TypeTraitsRegularFaceValence st._subdivType) l0 }

/-- Model of `TopologyRefiner::GetNumPtexFaces` (lines 139-146): lazily initialize
the cache if empty, then return `_ptexIndices.back()` (`getLast?`; `none`
if the read is out of bounds). -/
def GetNumPtexFaces (st : RefinerState) : Option Int :=
  (if st._ptexIndices.isEmpty then initPtexIndices st else some st).bind
    fun stA => stA._ptexIndices.getLast?

/-- Model of `TopologyRefiner::GetPtexIndex` (lines 147-156): lazily initialize the
cache if empty; if `f < (int)size - 1` return `_ptexIndices[f]` (an
out-of-bounds read — `none` — when `f` is negative), else return `-1`. -/
def GetPtexIndex (st : RefinerState) (f : Int) : Option Int :=
  (if st._ptexIndices.isEmpty then initPtexIndices st else some st).bind
    fun stA =>
      if f < (stA._ptexIndices.length : Int) - 1 then
        if 0 ≤ f then some (stA._ptexIndices.getD f.toNat 0) else none
      else
        some (-1)

/-- The loop of `TopologyRefiner::RefineUniform` (lines 183-189), driven by
an oracle `refineFn` standing for `Vtr::Refinement::refine`.  `i` is the
loop counter, the fuel argument counts the remaining iterations
(`maxLevel - i + 1`).  Each iteration sets
`_faceTopologyOnly = fullTopology ? false : (i == maxLevel)`,
`_sparse = false`, and produces the child level from the parent. -/
def uniformSteps (refineFn : Level → RefineOptions → Level) (scheme : SdcType)
    (fullTopology : Bool) (maxLevel : Nat) :
    Nat → Nat → Level → List Level × List RefinementRec
  | _, 0, _ => ([], [])
  | i, Nat.succ fuel, parent =>
      let refineOptions : RefineOptions :=
        { _sparse := false
          _faceTopologyOnly := if fullTopology then false else i == maxLevel }
      let child := refineFn parent refineOptions
      let rest := uniformSteps refineFn scheme fullTopology maxLevel (i + 1) fuel child
      (child :: rest.1,
       { scheme := scheme, parent := parent, child := child, options := refineOptions } :: rest.2)

/-- Model of `TopologyRefiner::RefineUniform` (lines 162-190): sets
`_isUniform = true`, `_maxLevel = maxLevel`, resizes `_levels` to
`maxLevel+1` and `_refinements` to `maxLevel`, and runs the loop filling
slots `1..maxLevel` from the base level. -/
def RefineUniform (refineFn : Level → RefineOptions → Level)
    (st : RefinerState) (maxLevel : Nat) (fullTopology : Bool) : RefinerState :=
  let base := st._levels.headD Level.default
  let res := uniformSteps refineFn st._subdivType fullTopology maxLevel 1 maxLevel base
  { st with
    _isUniform := true
    _maxLevel := maxLevel
    _levels := base :: res.1
    _refinements := res.2 }

/-- The loop of `TopologyRefiner::RefineAdaptive` (lines 217-254), driven by
an oracle `refineFn` standing for the sparse `Vtr::Refinement::refine`.
Each iteration runs the feature-adaptive selector on the parent level; on a
non-empty selection it forces `_faceTopologyOnly = false` onto the
previously computed options (`opts0`) and refines; on an empty selection it
stops, discarding the in-progress level and refinement slots. -/
def adaptiveSteps (refineFn : Level → Selection → RefineOptions → Level)
    (scheme : SdcType) (opts0 : RefineOptions) :
    Nat → Level → List Level × List RefinementRec
  | 0, _ => ([], [])
  | Nat.succ fuel, parent =>
      let sel := catmarkFeatureAdaptiveSelector parent
      if sel.isEmpty then
        ([], [])
      else
        let refineOptions := { opts0 with _faceTopologyOnly := false }
        let child := refineFn parent sel refineOptions
        let rest := adaptiveSteps refineFn scheme opts0 fuel child
        (child :: rest.1,
         { scheme := scheme, parent := parent, child := child, options := refineOptions } :: rest.2)

/-- Model of `TopologyRefiner::RefineAdaptive` (lines 193-255): sets
`_isUniform = false`, computes `refineOptions` with `_sparse = true`,
`_faceTopologyOnly = !fullTopology` (lines 212-215), and runs the loop;
`_maxLevel` and the two sequence lengths reflect the truncation on early
convergence (the final `_maxLevel` always equals the number of refinements
actually performed). -/
def RefineAdaptive (refineFn : Level → Selection → RefineOptions → Level)
    (st : RefinerState) (subdivLevel : Nat) (fullTopology : Bool) : RefinerState :=
  let refineOptions : RefineOptions := { _sparse := true, _faceTopologyOnly := !fullTopology }
  let base := st._levels.headD Level.default
  let res := adaptiveSteps refineFn st._subdivType refineOptions subdivLevel base
  { st with
    _isUniform := false
    _maxLevel := res.1.length
    _levels := base :: res.1
    _refinements := res.2 }

/-! ### Concrete levels and states used by witnesses and counterexamples -/

/-- Tag of a regular smooth interior vertex. -/
def smoothTag : VTag :=
  { _incomplete := false, _xordinary := false, _semiSharp := false,
    _nonManifold := false, _rule := RULE_SMOOTH }

/-- Composite tag containing an extraordinary vertex. -/
def xordTag : VTag := { smoothTag with _xordinary := true }

/-- A single regular smooth quad: 4 vertices, 1 face. -/
def quadLevel : Level :=
  { getNumVertices := 4
    getNumFaces := 1
    getFaceVertices := fun f => if f = 0 then [0, 1, 2, 3] else []
    getVertexFaces := fun v => if v < 4 then [0] else []
    getFaceCompositeVTag := fun _ => smoothTag }

/-- A quad level whose composite tag carries an extraordinary vertex. -/
def xordQuadLevel : Level :=
  { quadLevel with getFaceCompositeVTag := fun _ => xordTag }

/-- A pentagon (face 0) sharing vertices 0 and 1 with a quad (face 1). -/
def pentaLevel : Level :=
  { getNumVertices := 7
    getNumFaces := 2
    getFaceVertices := fun f =>
      if f = 0 then [0, 1, 2, 3, 4] else if f = 1 then [1, 0, 5, 6] else []
    getVertexFaces := fun v =>
      if v ≤ 1 then [0, 1] else if v ≤ 4 then [0] else if v ≤ 6 then [1] else []
    getFaceCompositeVTag := fun _ => smoothTag }

/-- One quad (face 0) and one hexagon (face 1). -/
def hexQuadLevel : Level :=
  { getNumVertices := 8
    getNumFaces := 2
    getFaceVertices := fun f =>
      if f = 0 then [0, 1, 2, 3] else if f = 1 then [2, 3, 4, 5, 6, 7] else []
    getVertexFaces := fun v =>
      if v ≤ 1 then [0] else if v ≤ 3 then [0, 1] else [1]
    getFaceCompositeVTag := fun _ => smoothTag }

/-- A refiner state whose base level has been externally loaded. -/
def baseState (scheme : SdcType) (l : Level) : RefinerState :=
  { _subdivType := scheme
    _subdivOptions := {}
    _isUniform := true
    _maxLevel := 0
    _levels := [l]
    _refinements := []
    _ptexIndices := [] }

end Far

namespace Far

/-! ### Selection membership lemmas -/

theorem mem_selectFace_iff (s : Selection) (a f : Nat) :
    a ∈ Selection.selectFace s f ↔ a ∈ s ∨ a = f := by
  unfold Selection.selectFace
  by_cases h : f ∈ s
  · simp only [if_pos h]
    constructor
    · exact Or.inl
    · rintro (ha | rfl)
      · exact ha
      · exact h
  · simp [if_neg h]

theorem mem_selectFace_of_mem {s : Selection} {a : Nat} (f : Nat) (h : a ∈ s) :
    a ∈ Selection.selectFace s f :=
  (mem_selectFace_iff s a f).mpr (Or.inl h)

theorem mem_selectFace_self (s : Selection) (f : Nat) : f ∈ Selection.selectFace s f :=
  (mem_selectFace_iff s f f).mpr (Or.inr rfl)

theorem mem_foldl_selectFace_of_mem {s : Selection} {a : Nat} (l : List Nat) (h : a ∈ s) :
    a ∈ l.foldl Selection.selectFace s := by
  induction l generalizing s with
  | nil => exact h
  | cons b t ih => exact ih (mem_selectFace_of_mem b h)

theorem mem_foldl_selectFace_of_mem_list {l : List Nat} {a : Nat} (s : Selection) (h : a ∈ l) :
    a ∈ l.foldl Selection.selectFace s := by
  induction l generalizing s with
  | nil => cases h
  | cons b t ih =>
    rcases List.mem_cons.mp h with rfl | hm
    · exact mem_foldl_selectFace_of_mem t (mem_selectFace_self s a)
    · exact ih (Selection.selectFace s b) hm

theorem mem_vertExpansion_of_mem (level : Level) {s : Selection} {a : Nat}
    (verts : List Nat) (h : a ∈ s) :
    a ∈ verts.foldl (fun s v => (level.getVertexFaces v).foldl Selection.selectFace s) s := by
  induction verts generalizing s with
  | nil => exact h
  | cons v t ih => exact ih (mem_foldl_selectFace_of_mem _ h)

theorem mem_vertExpansion_of_incident (level : Level) {verts : List Nat} {v g : Nat}
    (s : Selection) (hv : v ∈ verts) (hg : g ∈ level.getVertexFaces v) :
    g ∈ verts.foldl (fun s v => (level.getVertexFaces v).foldl Selection.selectFace s) s := by
  induction verts generalizing s with
  | nil => cases hv
  | cons b t ih =>
    rcases List.mem_cons.mp hv with rfl | hm
    · exact mem_vertExpansion_of_mem level t (mem_foldl_selectFace_of_mem_list s hg)
    · exact ih _ hm

theorem mem_step_of_mem (level : Level) {s : Selection} {a : Nat} (face : Nat) (h : a ∈ s) :
    a ∈ selectorStepForFace level s face := by
  unfold selectorStepForFace
  by_cases hq : (level.getFaceVertices face).length ≠ 4
  · simp only [if_pos hq]
    exact mem_vertExpansion_of_mem level _ h
  · simp only [if_neg hq]
    by_cases hinc : (level.getFaceCompositeVTag (level.getFaceVertices face))._incomplete
    · simp only [if_pos hinc]; exact h
    · simp only [if_neg hinc]
      by_cases hflag : selectFaceFlag (level.getFaceCompositeVTag (level.getFaceVertices face))
      · simp only [if_pos hflag]; exact mem_selectFace_of_mem face h
      · simp only [if_neg hflag]; exact h

theorem mem_foldl_step_of_mem (level : Level) {s : Selection} {a : Nat}
    (faces : List Nat) (h : a ∈ s) :
    a ∈ faces.foldl (selectorStepForFace level) s := by
  induction faces generalizing s with
  | nil => exact h
  | cons b t ih => exact ih (mem_step_of_mem level b h)

theorem mem_step_expansion (level : Level) {face v g : Nat} (s : Selection)
    (hq : (level.getFaceVertices face).length ≠ 4)
    (hv : v ∈ level.getFaceVertices face) (hg : g ∈ level.getVertexFaces v) :
    g ∈ selectorStepForFace level s face := by
  unfold selectorStepForFace
  simp only [if_pos hq]
  exact mem_vertExpansion_of_incident level s hv hg

theorem mem_foldl_step_of_elem (level : Level) {faces : List Nat} {face g : Nat}
    (s : Selection) (hf : face ∈ faces)
    (hadd : ∀ s' : Selection, g ∈ selectorStepForFace level s' face) :
    g ∈ faces.foldl (selectorStepForFace level) s := by
  obtain ⟨l1, l2, rfl⟩ := List.append_of_mem hf
  rw [List.foldl_append, List.foldl_cons]
  exact mem_foldl_step_of_mem level l2 (hadd _)

end Far

namespace Far

/-! ### Characterization of the quad classification chain -/

theorem selectFaceFlag_eq_true_iff (t : VTag) :
    selectFaceFlag t = true ↔
      (t._xordinary = true ∨ t._semiSharp = true ∨ t._rule &&& RULE_DART ≠ 0 ∨
       t._nonManifold = true ∨ t._rule &&& RULE_SMOOTH = 0) := by
  unfold selectFaceFlag
  split_ifs with h1 h2 h3 h4 <;>
    (simp_all [Bool.or_eq_true, bne_iff_ne, beq_iff_eq]; try tauto)

/-- Claim C2: for a face of the examined level whose vertex count equals 4,
the per-face classification of `catmarkFeatureAdaptiveSelector` selects the
face if and only if the composite vertex tag of the face is not incomplete
and at least one of the following holds: an extraordinary valence is
present, a semi-sharp crease is present, the combined rule bits include
`RULE_DART`, some incident vertex is non-manifold (composite `_nonManifold`
set), or no incident vertex carries the `RULE_SMOOTH` rule bit; moreover a
quad face whose composite tag reports incompleteness is never selected by
its classification (the selection is returned unchanged). -/
theorem claim_C2_quad_selection (level : Level) (sel : Selection) (face : Nat)
    (hq : (level.getFaceVertices face).length = 4) :
    (face ∈ selectorStepForFace level sel face ↔
       face ∈ sel ∨
         ((level.getFaceCompositeVTag (level.getFaceVertices face))._incomplete = false ∧
          ((level.getFaceCompositeVTag (level.getFaceVertices face))._xordinary = true ∨
           (level.getFaceCompositeVTag (level.getFaceVertices face))._semiSharp = true ∨
           (level.getFaceCompositeVTag (level.getFaceVertices face))._rule &&& RULE_DART ≠ 0 ∨
           (level.getFaceCompositeVTag (level.getFaceVertices face))._nonManifold = true ∨
           (level.getFaceCompositeVTag (level.getFaceVertices face))._rule &&& RULE_SMOOTH = 0))) ∧
    ((level.getFaceCompositeVTag (level.getFaceVertices face))._incomplete = true →
       selectorStepForFace level sel face = sel) := by
  have hq' : ¬((level.getFaceVertices face).length ≠ 4) := by simp [hq]
  constructor
  · unfold selectorStepForFace
    simp only [if_neg hq']
    by_cases hinc : (level.getFaceCompositeVTag (level.getFaceVertices face))._incomplete
    · simp [hinc]
    · by_cases hflag : selectFaceFlag (level.getFaceCompositeVTag (level.getFaceVertices face))
      · have hcond := (selectFaceFlag_eq_true_iff _).mp hflag
        simp [hinc, hflag, mem_selectFace_iff, hcond]
      · have hcond : ¬((level.getFaceCompositeVTag (level.getFaceVertices face))._xordinary = true ∨
            (level.getFaceCompositeVTag (level.getFaceVertices face))._semiSharp = true ∨
            (level.getFaceCompositeVTag (level.getFaceVertices face))._rule &&& RULE_DART ≠ 0 ∨
            (level.getFaceCompositeVTag (level.getFaceVertices face))._nonManifold = true ∨
            (level.getFaceCompositeVTag (level.getFaceVertices face))._rule &&& RULE_SMOOTH = 0) :=
          fun hc => hflag ((selectFaceFlag_eq_true_iff _).mpr hc)
        simp [hinc, hflag, hcond]
  · intro hinc
    unfold selectorStepForFace
    simp only [if_neg hq']
    simp [hinc]

/-- Witness for claim C2 at a concrete quad level with an extraordinary
vertex: the hypothesis holds and the classification selects the face. -/
theorem claim_C2_witness :
    ((xordQuadLevel.getFaceVertices 0).length = 4) ∧
    ((0 ∈ selectorStepForFace xordQuadLevel [] 0 ↔
       0 ∈ ([] : Selection) ∨
         ((xordQuadLevel.getFaceCompositeVTag (xordQuadLevel.getFaceVertices 0))._incomplete = false ∧
          ((xordQuadLevel.getFaceCompositeVTag (xordQuadLevel.getFaceVertices 0))._xordinary = true ∨
           (xordQuadLevel.getFaceCompositeVTag (xordQuadLevel.getFaceVertices 0))._semiSharp = true ∨
           (xordQuadLevel.getFaceCompositeVTag (xordQuadLevel.getFaceVertices 0))._rule &&& RULE_DART ≠ 0 ∨
           (xordQuadLevel.getFaceCompositeVTag (xordQuadLevel.getFaceVertices 0))._nonManifold = true ∨
           (xordQuadLevel.getFaceCompositeVTag (xordQuadLevel.getFaceVertices 0))._rule &&& RULE_SMOOTH = 0))) ∧
     ((xordQuadLevel.getFaceCompositeVTag (xordQuadLevel.getFaceVertices 0))._incomplete = true →
        selectorStepForFace xordQuadLevel [] 0 = [])) :=
  ⟨by decide, claim_C2_quad_selection xordQuadLevel [] 0 (by decide)⟩

/-- Claim C3: for a face of the examined level whose vertex count is not 4,
the selector selects every face incident to every vertex of that face
(taking `g` incident to a vertex `v` of the face; with reciprocal
face-vertex adjacency this includes the face itself), so after a full
selector pass every such face is present in the selection; and the step for
a non-quad face performs no tag-based classification: its result is
unchanged under an arbitrary replacement of the level's composite-tag
aggregation. -/
theorem claim_C3_nonquad_closure (level : Level) (tagFn : List Nat → VTag)
    (sel : Selection) (face v g : Nat)
    (hface : face < level.getNumFaces)
    (hq : (level.getFaceVertices face).length ≠ 4)
    (hv : v ∈ level.getFaceVertices face)
    (hg : g ∈ level.getVertexFaces v) :
    g ∈ catmarkFeatureAdaptiveSelector level ∧
    selectorStepForFace { level with getFaceCompositeVTag := tagFn } sel face =
      selectorStepForFace level sel face := by
  constructor
  · unfold catmarkFeatureAdaptiveSelector
    exact mem_foldl_step_of_elem level [] (List.mem_range.mpr hface)
      (fun s' => mem_step_expansion level s' hq hv hg)
  · unfold selectorStepForFace
    simp only [if_pos hq]

/-- Witness for claim C3 at the concrete pentagon-plus-quad level: the quad
(face 1) shares vertex 0 with the pentagon (face 0) and ends up selected,
and the pentagon's step ignores the composite tags. -/
theorem claim_C3_witness :
    (0 < pentaLevel.getNumFaces ∧ (pentaLevel.getFaceVertices 0).length ≠ 4 ∧
     0 ∈ pentaLevel.getFaceVertices 0 ∧ 1 ∈ pentaLevel.getVertexFaces 0) ∧
    (1 ∈ catmarkFeatureAdaptiveSelector pentaLevel ∧
     selectorStepForFace { pentaLevel with getFaceCompositeVTag := fun _ => xordTag } [] 0 =
       selectorStepForFace pentaLevel [] 0) :=
  ⟨by decide,
   claim_C3_nonquad_closure pentaLevel (fun _ => xordTag) [] 0 0 1
     (by decide) (by decide) (by decide) (by decide)⟩

end Far

namespace Far

/-! ### Uniform refinement loop lemmas -/

theorem uniformSteps_len (refineFn : Level → RefineOptions → Level) (scheme : SdcType)
    (fullTopology : Bool) (maxLevel : Nat) :
    ∀ (fuel i : Nat) (parent : Level),
      (uniformSteps refineFn scheme fullTopology maxLevel i fuel parent).1.length = fuel ∧
      (uniformSteps refineFn scheme fullTopology maxLevel i fuel parent).2.length = fuel := by
  intro fuel
  induction fuel with
  | zero => intro i parent; simp [uniformSteps]
  | succ n ih =>
    intro i parent
    simp only [uniformSteps, List.length_cons]
    exact ⟨by rw [(ih (i + 1) _).1], by rw [(ih (i + 1) _).2]⟩

theorem uniformSteps_sparse (refineFn : Level → RefineOptions → Level) (scheme : SdcType)
    (fullTopology : Bool) (maxLevel : Nat) :
    ∀ (fuel i : Nat) (parent : Level),
      ((uniformSteps refineFn scheme fullTopology maxLevel i fuel parent).2.all
        fun r => !r.options._sparse) = true := by
  intro fuel
  induction fuel with
  | zero => intro i parent; simp [uniformSteps]
  | succ n ih =>
    intro i parent
    simp only [uniformSteps, List.all_cons]
    simpa using ih (i + 1) _

/-- Claim C4: a call `RefineUniform(depth, fullTopology)` on a state with a
non-empty, initialized base level and Catmull-Clark scheme leaves exactly
`depth+1` levels and `depth` refinements, sets `_isUniform = true` and
`_maxLevel = depth`, and every refine step is invoked with
`_sparse = false`. -/
theorem claim_C4_refine_uniform (refineFn : Level → RefineOptions → Level)
    (st : RefinerState) (depth : Nat) (fullTopology : Bool)
    (_h0 : st._levels ≠ [])
    (_h1 : 0 < (st._levels.headD Level.default).getNumVertices)
    (_h2 : st._subdivType = SdcType.TYPE_CATMARK) :
    (RefineUniform refineFn st depth fullTopology)._levels.length = depth + 1 ∧
    (RefineUniform refineFn st depth fullTopology)._refinements.length = depth ∧
    (RefineUniform refineFn st depth fullTopology)._isUniform = true ∧
    (RefineUniform refineFn st depth fullTopology)._maxLevel = depth ∧
    ((RefineUniform refineFn st depth fullTopology)._refinements.all
      fun r => !r.options._sparse) = true := by
  unfold RefineUniform
  refine ⟨?_, ?_, rfl, rfl, ?_⟩
  · simp [(uniformSteps_len refineFn st._subdivType fullTopology depth depth 1 _).1]
  · exact (uniformSteps_len refineFn st._subdivType fullTopology depth depth 1 _).2
  · exact uniformSteps_sparse refineFn st._subdivType fullTopology depth depth 1 _

/-- Witness for claim C4: uniform refinement of a single smooth quad to
depth 2 with an identity refine oracle. -/
theorem claim_C4_witness :
    ((baseState SdcType.TYPE_CATMARK quadLevel)._levels ≠ [] ∧
     0 < ((baseState SdcType.TYPE_CATMARK quadLevel)._levels.headD Level.default).getNumVertices ∧
     (baseState SdcType.TYPE_CATMARK quadLevel)._subdivType = SdcType.TYPE_CATMARK) ∧
    ((RefineUniform (fun l _ => l) (baseState SdcType.TYPE_CATMARK quadLevel) 2 false)._levels.length = 2 + 1 ∧
     (RefineUniform (fun l _ => l) (baseState SdcType.TYPE_CATMARK quadLevel) 2 false)._refinements.length = 2 ∧
     (RefineUniform (fun l _ => l) (baseState SdcType.TYPE_CATMARK quadLevel) 2 false)._isUniform = true ∧
     (RefineUniform (fun l _ => l) (baseState SdcType.TYPE_CATMARK quadLevel) 2 false)._maxLevel = 2 ∧
     ((RefineUniform (fun l _ => l) (baseState SdcType.TYPE_CATMARK quadLevel) 2 false)._refinements.all
       fun r => !r.options._sparse) = true) :=
  ⟨⟨List.cons_ne_nil _ _, by decide, rfl⟩,
   claim_C4_refine_uniform (fun l _ => l) (baseState SdcType.TYPE_CATMARK quadLevel) 2 false
     (List.cons_ne_nil _ _) (by decide) rfl⟩

/-! ### Adaptive refinement loop lemmas -/

theorem adaptiveSteps_len (refineFn : Level → Selection → RefineOptions → Level)
    (scheme : SdcType) (opts0 : RefineOptions) :
    ∀ (fuel : Nat) (parent : Level),
      (adaptiveSteps refineFn scheme opts0 fuel parent).2.length =
        (adaptiveSteps refineFn scheme opts0 fuel parent).1.length ∧
      (adaptiveSteps refineFn scheme opts0 fuel parent).1.length ≤ fuel := by
  intro fuel
  induction fuel with
  | zero => intro parent; simp [adaptiveSteps]
  | succ n ih =>
    intro parent
    by_cases h : (catmarkFeatureAdaptiveSelector parent).isEmpty
    · simp [adaptiveSteps, h]
    · simp only [adaptiveSteps, h, Bool.false_eq_true, if_false, List.length_cons]
      exact ⟨by rw [(ih _).1], Nat.succ_le_succ (ih _).2⟩

theorem adaptiveSteps_parents_nonempty (refineFn : Level → Selection → RefineOptions → Level)
    (scheme : SdcType) (opts0 : RefineOptions) :
    ∀ (fuel : Nat) (parent : Level),
      (((parent :: (adaptiveSteps refineFn scheme opts0 fuel parent).1).take
          (adaptiveSteps refineFn scheme opts0 fuel parent).1.length).all
        fun l => !(catmarkFeatureAdaptiveSelector l).isEmpty) = true := by
  intro fuel
  induction fuel with
  | zero => intro parent; simp [adaptiveSteps]
  | succ n ih =>
    intro parent
    by_cases h : (catmarkFeatureAdaptiveSelector parent).isEmpty
    · simp [adaptiveSteps, h]
    · simp only [adaptiveSteps, h, Bool.false_eq_true, if_false, List.length_cons,
        List.take_succ_cons, List.all_cons]
      simp only [h, Bool.not_false, Bool.true_and]
      exact ih _

theorem adaptiveSteps_stop (refineFn : Level → Selection → RefineOptions → Level)
    (scheme : SdcType) (opts0 : RefineOptions) :
    ∀ (fuel : Nat) (parent : Level),
      (adaptiveSteps refineFn scheme opts0 fuel parent).1.length = fuel ∨
      (catmarkFeatureAdaptiveSelector
        ((parent :: (adaptiveSteps refineFn scheme opts0 fuel parent).1).getD
          (adaptiveSteps refineFn scheme opts0 fuel parent).1.length Level.default)).isEmpty
        = true := by
  intro fuel
  induction fuel with
  | zero => intro parent; left; simp [adaptiveSteps]
  | succ n ih =>
    intro parent
    by_cases h : (catmarkFeatureAdaptiveSelector parent).isEmpty
    · right; simp [adaptiveSteps, h]
    · rcases ih (refineFn parent (catmarkFeatureAdaptiveSelector parent)
        { opts0 with _faceTopologyOnly := false }) with hlen | hsel
      · left
        simp only [adaptiveSteps, h, Bool.false_eq_true, if_false, List.length_cons]
        rw [hlen]
      · right
        simp only [adaptiveSteps, h, Bool.false_eq_true, if_false, List.length_cons,
          List.getD_cons_succ]
        exact hsel

theorem adaptiveSteps_options (refineFn : Level → Selection → RefineOptions → Level)
    (scheme : SdcType) (opts0 : RefineOptions) :
    ∀ (fuel : Nat) (parent : Level),
      ((adaptiveSteps refineFn scheme opts0 fuel parent).2.all
        fun r => r.options == { opts0 with _faceTopologyOnly := false }) = true := by
  intro fuel
  induction fuel with
  | zero => intro parent; simp [adaptiveSteps]
  | succ n ih =>
    intro parent
    by_cases h : (catmarkFeatureAdaptiveSelector parent).isEmpty
    · simp [adaptiveSteps, h]
    · simp only [adaptiveSteps, h, Bool.false_eq_true, if_false, List.all_cons]
      simp only [beq_self_eq_true, Bool.true_and]
      exact ih _

/-- Claim C1: a call `RefineAdaptive(depth, fullTopology)` on a state with a
non-empty, initialized base level and Catmull-Clark scheme leaves
`_isUniform = false`, `_maxLevel ≤ depth`, exactly `_maxLevel + 1` levels
and `_maxLevel` refinements; the feature-adaptive selection over every
level that was refined (the first `_maxLevel` levels) is non-empty; and
either `_maxLevel = depth` (no selection was empty through iteration
`depth`) or the selection over the last retained level is empty (the loop
truncated at `i = _maxLevel + 1`, setting `maxLevel = i - 1` and shrinking
the sequences to `i` and `i - 1` elements, performing no further
refinement). -/
theorem claim_C1_refine_adaptive (refineFn : Level → Selection → RefineOptions → Level)
    (st : RefinerState) (depth : Nat) (fullTopology : Bool)
    (_h0 : st._levels ≠ [])
    (_h1 : 0 < (st._levels.headD Level.default).getNumVertices)
    (_h2 : st._subdivType = SdcType.TYPE_CATMARK) :
    (RefineAdaptive refineFn st depth fullTopology)._isUniform = false ∧
    (RefineAdaptive refineFn st depth fullTopology)._maxLevel ≤ depth ∧
    (RefineAdaptive refineFn st depth fullTopology)._levels.length =
      (RefineAdaptive refineFn st depth fullTopology)._maxLevel + 1 ∧
    (RefineAdaptive refineFn st depth fullTopology)._refinements.length =
      (RefineAdaptive refineFn st depth fullTopology)._maxLevel ∧
    (((RefineAdaptive refineFn st depth fullTopology)._levels.take
        (RefineAdaptive refineFn st depth fullTopology)._maxLevel).all
      fun l => !(catmarkFeatureAdaptiveSelector l).isEmpty) = true ∧
    ((RefineAdaptive refineFn st depth fullTopology)._maxLevel = depth ∨
     (catmarkFeatureAdaptiveSelector
       ((RefineAdaptive refineFn st depth fullTopology)._levels.getD
         (RefineAdaptive refineFn st depth fullTopology)._maxLevel Level.default)).isEmpty
       = true) := by
  unfold RefineAdaptive
  refine ⟨rfl, ?_, by simp, ?_, ?_, ?_⟩
  · exact (adaptiveSteps_len refineFn st._subdivType _ depth _).2
  · exact (adaptiveSteps_len refineFn st._subdivType _ depth _).1
  · exact adaptiveSteps_parents_nonempty refineFn st._subdivType _ depth _
  · exact adaptiveSteps_stop refineFn st._subdivType _ depth _

/-- Witness for claim C1: an extraordinary quad base whose refinement
produces a smooth regular quad level, requested to depth 3; the run
truncates with `_maxLevel = 1`, 2 levels and 1 refinement. -/
theorem claim_C1_witness :
    ((baseState SdcType.TYPE_CATMARK xordQuadLevel)._levels ≠ [] ∧
     0 < ((baseState SdcType.TYPE_CATMARK xordQuadLevel)._levels.headD Level.default).getNumVertices ∧
     (baseState SdcType.TYPE_CATMARK xordQuadLevel)._subdivType = SdcType.TYPE_CATMARK) ∧
    ((RefineAdaptive (fun _ _ _ => quadLevel) (baseState SdcType.TYPE_CATMARK xordQuadLevel) 3 true)._isUniform = false ∧
     (RefineAdaptive (fun _ _ _ => quadLevel) (baseState SdcType.TYPE_CATMARK xordQuadLevel) 3 true)._maxLevel ≤ 3 ∧
     (RefineAdaptive (fun _ _ _ => quadLevel) (baseState SdcType.TYPE_CATMARK xordQuadLevel) 3 true)._levels.length =
       (RefineAdaptive (fun _ _ _ => quadLevel) (baseState SdcType.TYPE_CATMARK xordQuadLevel) 3 true)._maxLevel + 1 ∧
     (RefineAdaptive (fun _ _ _ => quadLevel) (baseState SdcType.TYPE_CATMARK xordQuadLevel) 3 true)._refinements.length =
       (RefineAdaptive (fun _ _ _ => quadLevel) (baseState SdcType.TYPE_CATMARK xordQuadLevel) 3 true)._maxLevel ∧
     (((RefineAdaptive (fun _ _ _ => quadLevel) (baseState SdcType.TYPE_CATMARK xordQuadLevel) 3 true)._levels.take
         (RefineAdaptive (fun _ _ _ => quadLevel) (baseState SdcType.TYPE_CATMARK xordQuadLevel) 3 true)._maxLevel).all
       fun l => !(catmarkFeatureAdaptiveSelector l).isEmpty) = true ∧
     ((RefineAdaptive (fun _ _ _ => quadLevel) (baseState SdcType.TYPE_CATMARK xordQuadLevel) 3 true)._maxLevel = 3 ∨
      (catmarkFeatureAdaptiveSelector
        ((RefineAdaptive (fun _ _ _ => quadLevel) (baseState SdcType.TYPE_CATMARK xordQuadLevel) 3 true)._levels.getD
          (RefineAdaptive (fun _ _ _ => quadLevel) (baseState SdcType.TYPE_CATMARK xordQuadLevel) 3 true)._maxLevel
          Level.default)).isEmpty = true)) :=
  ⟨⟨List.cons_ne_nil _ _, by decide, rfl⟩,
   claim_C1_refine_adaptive (fun _ _ _ => quadLevel) (baseState SdcType.TYPE_CATMARK xordQuadLevel) 3 true
     (List.cons_ne_nil _ _) (by decide) rfl⟩

/-- Claim C5: in `RefineAdaptive`, every refine step is invoked with
`_sparse = true` and `_faceTopologyOnly = false`, for every caller-supplied
`fullTopology` value — the `!fullTopology` value placed in the options
beforehand is overwritten with `false` before every refine call. -/
theorem claim_C5_adaptive_options (refineFn : Level → Selection → RefineOptions → Level)
    (st : RefinerState) (depth : Nat) (fullTopology : Bool) :
    ((RefineAdaptive refineFn st depth fullTopology)._refinements.all
      fun r => r.options == RefineOptions.mk true false) = true := by
  unfold RefineAdaptive
  exact adaptiveSteps_options refineFn st._subdivType
    { _sparse := true, _faceTopologyOnly := !fullTopology } depth _

end Far

namespace Far

/-- Counterexample to claim C6 as stated: after `Clear()`, the level
sequence is empty, and `Unrefine()` — whose `resize(1)` is guarded by
`if (_levels.size())` — leaves it empty, not with one element. -/
theorem claim_C6_counterexample :
    (Unrefine (Clear (TopologyRefinerCtor SdcType.TYPE_CATMARK {})))._levels = [] ∧
    (Unrefine (Clear (TopologyRefinerCtor SdcType.TYPE_CATMARK {})))._levels.length ≠ 1 := by
  constructor
  · rfl
  · decide

/-- Claim C6 (amended): for every prior state whose level sequence is
non-empty (any prior depth, uniform or adaptive — but not after `Clear`,
which empties the sequence), `Unrefine()` leaves exactly one level, the
original base level unchanged, and an empty refinement sequence; on an
empty level sequence both sequences are left empty. -/
theorem claim_C6_unrefine (st : RefinerState) (h : st._levels ≠ []) :
    (Unrefine st)._levels = [st._levels.headD Level.default] ∧
    (Unrefine st)._refinements = [] := by
  rcases hl : st._levels with _ | ⟨a, t⟩
  · exact absurd hl h
  · refine ⟨?_, rfl⟩
    show (if st._levels.length ≠ 0 then st._levels.take 1 else st._levels) = _
    rw [hl]
    simp

/-- Witness for claim C6 at a state holding a base quad level. -/
theorem claim_C6_witness :
    (baseState SdcType.TYPE_CATMARK quadLevel)._levels ≠ [] ∧
    ((Unrefine (baseState SdcType.TYPE_CATMARK quadLevel))._levels =
       [(baseState SdcType.TYPE_CATMARK quadLevel)._levels.headD Level.default] ∧
     (Unrefine (baseState SdcType.TYPE_CATMARK quadLevel))._refinements = []) :=
  ⟨List.cons_ne_nil _ _,
   claim_C6_unrefine (baseState SdcType.TYPE_CATMARK quadLevel) (List.cons_ne_nil _ _)⟩

/-- Counterexample to claim C7 as stated: populate the Ptex cache of a
one-quad base (cache `[0, 1]`), then `Clear()`. The cache is not
invalidated, and a subsequent `GetNumPtexFaces` query returns `1` — the
Ptex face count of the replaced level 0. -/
theorem claim_C7_counterexample :
    (Clear ((initPtexIndices (baseState SdcType.TYPE_CATMARK quadLevel)).getD
       (baseState SdcType.TYPE_CATMARK quadLevel)))._ptexIndices = [0, 1] ∧
    GetNumPtexFaces (Clear ((initPtexIndices (baseState SdcType.TYPE_CATMARK quadLevel)).getD
       (baseState SdcType.TYPE_CATMARK quadLevel))) = some 1 := by
  constructor
  · decide
  · decide

/-- Claim C7 (amended): `Clear()` empties both the level sequence
(including level 0) and the refinement sequence, but does not invalidate
the lazily computed Ptex index cache: `_ptexIndices` is left exactly as it
was, so a subsequent Ptex query on a populated cache returns values derived
from the replaced level 0. -/
theorem claim_C7_clear (st : RefinerState) :
    (Clear st)._levels = [] ∧
    (Clear st)._refinements = [] ∧
    (Clear st)._ptexIndices = st._ptexIndices :=
  ⟨rfl, rfl, rfl⟩

/-! ### Ptex prefix-sum lemmas -/

theorem ptexLoop_cons (reg : Nat) (level : Level) (n i : Nat) (p : Int) :
    ∃ t, ptexLoop reg level n i p = p :: t := by
  cases n with
  | zero => exact ⟨[], rfl⟩
  | succ m => exact ⟨_, rfl⟩

theorem ptexLoop_length (reg : Nat) (level : Level) :
    ∀ (n i : Nat) (p : Int), (ptexLoop reg level n i p).length = n + 1 := by
  intro n
  induction n with
  | zero => intro i p; rfl
  | succ m ih => intro i p; simp only [ptexLoop, List.length_cons, ih]

theorem computePtexIndices_length (reg : Nat) (level : Level) :
    (computePtexIndices reg level).length = level.getNumFaces + 1 :=
  ptexLoop_length reg level level.getNumFaces 0 0

theorem ptexLoop_chain (reg : Nat) (level : Level) :
    ∀ (n i : Nat) (p : Int), List.Chain' (· ≤ ·) (ptexLoop reg level n i p) := by
  intro n
  induction n with
  | zero => intro i p; simp [ptexLoop]
  | succ m ih =>
    intro i p
    obtain ⟨t, ht⟩ := ptexLoop_cons reg level m (i + 1)
      (p + (ptexFaceContribution reg level i : Int))
    show List.Chain' (· ≤ ·) (p :: ptexLoop reg level m (i + 1) _)
    rw [ht, List.chain'_cons]
    constructor
    · exact le_add_of_nonneg_right (Int.natCast_nonneg _)
    · rw [← ht]; exact ih (i + 1) _

theorem ptexLoop_getLast (reg : Nat) (level : Level) :
    ∀ (n i : Nat) (p : Int),
      (ptexLoop reg level n i p).getLast? =
        some (p + ((List.range n).map
          fun k => (ptexFaceContribution reg level (i + k) : Int)).sum) := by
  intro n
  induction n with
  | zero => intro i p; simp [ptexLoop]
  | succ m ih =>
    intro i p
    obtain ⟨t, ht⟩ := ptexLoop_cons reg level m (i + 1)
      (p + (ptexFaceContribution reg level i : Int))
    show (p :: ptexLoop reg level m (i + 1) _).getLast? = _
    rw [ht, List.getLast?_cons_cons, ← ht, ih]
    have harg : ∀ k, i + 1 + k = i + (k + 1) := fun k => by omega
    simp only [List.range_succ_eq_map, List.map_cons, List.map_map, List.sum_cons,
      Function.comp_def, Nat.succ_eq_add_one, harg, Nat.add_zero]
    rw [add_assoc]

end Far

namespace Far

/-- Claim C8: for every base level the computed Ptex index sequence is
non-decreasing, and its last entry — the value `GetNumPtexFaces()` returns
on a freshly loaded state — equals the sum over all level-0 faces of
(1 if the face's vertex count equals the scheme's regular face valence,
else the face's vertex count). -/
theorem claim_C8_ptex_monotone_total (scheme : SdcType) (level : Level) :
    List.Chain' (· ≤ ·) (computePtexIndices (TypeTraitsRegularFaceValence scheme) level) ∧
    (computePtexIndices (TypeTraitsRegularFaceValence scheme) level).getLast? =
      some (((List.range level.getNumFaces).map
        fun i => (ptexFaceContribution (TypeTraitsRegularFaceValence scheme) level i : Int)).sum) ∧
    GetNumPtexFaces (baseState scheme level) =
      some (((List.range level.getNumFaces).map
        fun i => (ptexFaceContribution (TypeTraitsRegularFaceValence scheme) level i : Int)).sum) := by
  have hlast := ptexLoop_getLast (TypeTraitsRegularFaceValence scheme) level level.getNumFaces 0 0
  simp only [Nat.zero_add, zero_add] at hlast
  refine ⟨ptexLoop_chain _ _ _ _ _, hlast, ?_⟩
  unfold GetNumPtexFaces baseState initPtexIndices
  simpa [computePtexIndices] using hlast

/-- Counterexample to claim C9 as stated: `GetPtexIndex` guards only the
upper end of the range (`f < (int)size - 1`); for the out-of-range face
index `-1` the read `_ptexIndices[f]` is out of bounds — a fault, not the
sentinel `-1`. -/
theorem claim_C9_counterexample :
    GetPtexIndex (baseState SdcType.TYPE_CATMARK quadLevel) (-1) = none ∧
    GetPtexIndex (baseState SdcType.TYPE_CATMARK quadLevel) (-1) ≠ some (-1) :=
  ⟨by decide, by decide⟩

/-- Claim C9 (amended): on a state with an uncomputed cache and a loaded
base level, `GetPtexIndex(f)` returns the cached starting Ptex index of
face `f` when `0 ≤ f <` (number of level-0 faces), and returns the
sentinel `-1` without faulting for every face index at or above that
range; for a negative face index the unguarded read `_ptexIndices[f]` is
out of bounds (modelled as `none`). -/
theorem claim_C9_get_ptex_index (st : RefinerState) (l0 : Level) (rest : List Level) (f : Int)
    (hc : st._ptexIndices = []) (hl : st._levels = l0 :: rest) :
    (0 ≤ f → f < (l0.getNumFaces : Int) →
       GetPtexIndex st f =
         some ((computePtexIndices (TypeTraitsRegularFaceValence st._subdivType) l0).getD
           f.toNat 0)) ∧
    ((l0.getNumFaces : Int) ≤ f → GetPtexIndex st f = some (-1)) ∧
    (f < 0 → GetPtexIndex st f = none) := by
  have hbind : GetPtexIndex st f =
      (if f < ((computePtexIndices (TypeTraitsRegularFaceValence st._subdivType) l0).length : Int) - 1
       then
         if 0 ≤ f then
           some ((computePtexIndices (TypeTraitsRegularFaceValence st._subdivType) l0).getD
             f.toNat 0)
         else none
       else some (-1)) := by
    unfold GetPtexIndex initPtexIndices
    rw [hc, hl]
    simp
  have hlen : ((computePtexIndices (TypeTraitsRegularFaceValence st._subdivType) l0).length : Int)
      - 1 = (l0.getNumFaces : Int) := by
    rw [computePtexIndices_length]
    push_cast
    ring
  rw [hbind, hlen]
  refine ⟨fun h0 hlt => ?_, fun hge => ?_, fun hneg => ?_⟩
  · rw [if_pos hlt, if_pos h0]
  · rw [if_neg (not_lt.mpr hge)]
  · have hlt : f < (l0.getNumFaces : Int) :=
      lt_of_lt_of_le hneg (Int.natCast_nonneg _)
    rw [if_pos hlt, if_neg (not_le.mpr hneg)]

/-- Witness for the amended claim C9 at the quad-plus-hexagon base level
with face index 1. -/
theorem claim_C9_witness :
    ((baseState SdcType.TYPE_CATMARK hexQuadLevel)._ptexIndices = [] ∧
     (baseState SdcType.TYPE_CATMARK hexQuadLevel)._levels = hexQuadLevel :: []) ∧
    ((0 ≤ (1 : Int) → (1 : Int) < (hexQuadLevel.getNumFaces : Int) →
        GetPtexIndex (baseState SdcType.TYPE_CATMARK hexQuadLevel) 1 =
          some ((computePtexIndices
            (TypeTraitsRegularFaceValence
              (baseState SdcType.TYPE_CATMARK hexQuadLevel)._subdivType) hexQuadLevel).getD
            (1 : Int).toNat 0)) ∧
     ((hexQuadLevel.getNumFaces : Int) ≤ 1 →
        GetPtexIndex (baseState SdcType.TYPE_CATMARK hexQuadLevel) 1 = some (-1)) ∧
     ((1 : Int) < 0 → GetPtexIndex (baseState SdcType.TYPE_CATMARK hexQuadLevel) 1 = none)) :=
  ⟨⟨rfl, rfl⟩,
   claim_C9_get_ptex_index (baseState SdcType.TYPE_CATMARK hexQuadLevel) hexQuadLevel [] 1 rfl rfl⟩

/-- Claim C10: while the Ptex cache is empty, every Ptex query performs the
lazy initialization reading `_levels[0]`, and `GetNumPtexFaces` reads the
last cache entry; these accesses are in bounds exactly when the level
sequence is non-empty — which holds for a freshly constructed refiner and
is violated after `Clear()`. -/
theorem claim_C10_lazy_init_bounds (st : RefinerState) (f : Int)
    (scheme : SdcType) (opts : SdcOptions)
    (hc : st._ptexIndices = []) :
    (st._levels = [] → GetNumPtexFaces st = none ∧ GetPtexIndex st f = none) ∧
    (st._levels ≠ [] → GetNumPtexFaces st ≠ none) ∧
    (TopologyRefinerCtor scheme opts)._levels ≠ [] ∧
    (Clear st)._levels = [] := by
  refine ⟨fun hl => ?_, fun hl => ?_, List.cons_ne_nil _ _, rfl⟩
  · constructor
    · unfold GetNumPtexFaces initPtexIndices
      rw [hc, hl]
      simp
    · unfold GetPtexIndex initPtexIndices
      rw [hc, hl]
      simp
  · rcases hlv : st._levels with _ | ⟨l0, rest⟩
    · exact absurd hlv hl
    · have hlast := ptexLoop_getLast (TypeTraitsRegularFaceValence st._subdivType) l0
        l0.getNumFaces 0 0
      unfold GetNumPtexFaces initPtexIndices
      rw [hc, hlv]
      simp [computePtexIndices, hlast]

/-- Witness for claim C10: the state reached by `Clear()` from a fresh
refiner has an empty cache and empty levels, and both queries fault. -/
theorem claim_C10_witness :
    (Clear (TopologyRefinerCtor SdcType.TYPE_CATMARK {}))._ptexIndices = [] ∧
    (((Clear (TopologyRefinerCtor SdcType.TYPE_CATMARK {}))._levels = [] →
        GetNumPtexFaces (Clear (TopologyRefinerCtor SdcType.TYPE_CATMARK {})) = none ∧
        GetPtexIndex (Clear (TopologyRefinerCtor SdcType.TYPE_CATMARK {})) 0 = none) ∧
     ((Clear (TopologyRefinerCtor SdcType.TYPE_CATMARK {}))._levels ≠ [] →
        GetNumPtexFaces (Clear (TopologyRefinerCtor SdcType.TYPE_CATMARK {})) ≠ none) ∧
     (TopologyRefinerCtor SdcType.TYPE_CATMARK {})._levels ≠ [] ∧
     (Clear (Clear (TopologyRefinerCtor SdcType.TYPE_CATMARK {})))._levels = []) :=
  ⟨rfl,
   claim_C10_lazy_init_bounds (Clear (TopologyRefinerCtor SdcType.TYPE_CATMARK {})) 0
     SdcType.TYPE_CATMARK {} rfl⟩

end Far
